import Mathlib

/-!
iRACK queue management backend

A shallow embedding of `backend/server.js` and the two Mongoose schemas
(`backend/models/Ticket.js`, `backend/models/user.js`).

* A collection is the list of its documents in storage order.
* An `ObjectId` is a natural number; `_id` is the primary key of a collection. A request
  member that Mongoose casts to ObjectId is an `IdParam`: an ObjectId, or a string that does
  not cast.
* `Date` values are natural numbers (milliseconds).
* Every route handler is a function from the request and the collection(s) to an
  HTTP status code, a response body and the collection afterwards.
* `Math.random`, `Date.now` and the stored order are inputs of the handlers.
-/

namespace IRack

/-! ## Data model -/

/-- A MongoDB ObjectId. -/
abbrev ObjectId := Nat

/-- The values admitted by the `enum` of `ticketSchema.status` (models/Ticket.js line 7). -/
inductive Status where
  | Waiting
  | BeingServed
  | Completed
  deriving DecidableEq, Repr

/-- The value of a request member that Mongoose casts to ObjectId (`req.params.ticketId`,
`req.body.userId`): either it casts to the ObjectId `id`, or it is a string `raw` that does
not cast, and the cast fails with a CastError. -/
inductive IdParam where
  | objectId (id : ObjectId)
  | malformed (raw : String)
  deriving DecidableEq, Repr

/-- JavaScript truthiness of the member: of the strings only the empty one is falsy. -/
def IdParam.truthy : IdParam → Bool
  | IdParam.objectId _ => true
  | IdParam.malformed raw => decide (raw ≠ "")

/-- The string stored for a status. -/
def Status.toString : Status → String
  | .Waiting => "Waiting"
  | .BeingServed => "Being Served"
  | .Completed => "Completed"

/-- The enum validator of `ticketSchema.status`: a string outside the enum is rejected. -/
def Status.ofString? (s : String) : Option Status :=
  if s = "Waiting" then some .Waiting
  else if s = "Being Served" then some .BeingServed
  else if s = "Completed" then some .Completed
  else none

/-- Rank of a status in the order Waiting, Being Served, Completed. -/
def Status.rank : Status → Nat
  | .Waiting => 0
  | .BeingServed => 1
  | .Completed => 2

/-- A stored ticket document: `_id` and the five paths declared by `ticketSchema`
(models/Ticket.js lines 3-9). The schema declares no other path. -/
structure Ticket where
  _id : ObjectId
  userId : ObjectId
  ticketNumber : String
  position : Nat
  status : Status
  issuedAt : Nat
  deriving DecidableEq, Repr

/-- A stored user document (models/user.js lines 3-8). -/
structure User where
  _id : ObjectId
  name : String
  email : String
  password : String
  role : String
  deriving DecidableEq, Repr

/-- The tickets collection, in storage order. -/
abbrev Store := List Ticket

/-- The object literal handed to `new Ticket(...)` in `POST /api/ticket`
(server.js lines 118-124). -/
structure TicketInput where
  userId : IdParam
  ticketNumber : String
  position : Nat
  status : String
  issuedBy : String

/-- `ticket.issuedBy` read on a document: `ticketSchema` declares no path `issuedBy`,
so the property is undefined on every document. -/
def Ticket.issuedBy (_t : Ticket) : Option String := none

/-- JavaScript `a || b` for an optional string: the empty string and undefined are falsy. -/
def orElseStr (a : Option String) (b : String) : String :=
  match a with
  | some s => if s = "" then b else s
  | none => b

/-! ## generateTicketNumber (server.js lines 96-103) -/

/-- The alphabet of `generateTicketNumber`. -/
def characters : String := "ABCDEFGHIJKLMNOPQRSTUVWXYZ0123456789"

/-- JavaScript `s.charAt(i)`: the one-character string at index `i`, the empty string
when `i` is out of range. -/
def charAt (s : String) (i : Nat) : String :=
  match s.data.get? i with
  | some c => String.singleton c
  | none => ""

/-- The loop of `generateTicketNumber`, from iteration `i` on for `n` more iterations;
`draws k` is the value of `Math.floor(Math.random() * characters.length)` in iteration `k`. -/
def generateLoop (draws : Nat → Nat) : Nat → Nat → String → String
  | 0, _, ticketNumber => ticketNumber
  | n + 1, i, ticketNumber => generateLoop draws n (i + 1) (ticketNumber ++ charAt characters (draws i))

/-- The function `generateTicketNumber`. -/
def generateTicketNumber (draws : Nat → Nat) : String :=
  generateLoop draws 6 0 ""

/-- The character class `[A-Z0-9]`. -/
def isUpperAlnum (c : Char) : Bool :=
  (65 ≤ c.toNat && c.toNat ≤ 90) || (48 ≤ c.toNat && c.toNat ≤ 57)

/-! ## The tickets collection -/

/-- `Ticket.findById(id)`: the document whose `_id` is `id`, if any. -/
def findById (s : Store) (id : ObjectId) : Option Ticket :=
  s.find? (fun t => t._id = id)

/-- `Ticket.countDocuments({ status })`. -/
def countDocuments (s : Store) (st : Status) : Nat :=
  (s.filter (fun t => t.status = st)).length

/-- The `_id` generated for a new document: an ObjectId that no stored document has. -/
def freshId (s : Store) : ObjectId :=
  (s.map (fun t => t._id)).foldr max 0 + 1

/-- `new Ticket(input)` followed by the validation that `save()` runs: only the paths
declared by `ticketSchema` are kept (`issuedBy` is not one of them), `issuedAt` takes its
default `Date.now`, `userId` must cast to ObjectId, a `required` string must be non-empty and
`status` must be in the enum. `none` is a validation error. -/
def newTicket (id : ObjectId) (now : Nat) (input : TicketInput) : Option Ticket :=
  match input.userId, Status.ofString? input.status with
  | IdParam.objectId uid, some st =>
    if input.ticketNumber = "" then none
    else some
      { _id := id
        userId := uid
        ticketNumber := input.ticketNumber
        position := input.position
        status := st
        issuedAt := now }
  | _, _ => none

/-- A `save()` of a fetched document: the modified paths, given by `f`, are written to the
stored document with that `_id`. -/
def updateById (s : Store) (id : ObjectId) (f : Ticket → Ticket) : Store :=
  s.map (fun t => if t._id = id then f t else t)

/-- The call `Ticket.updateMany(...)` of server.js lines 129-132, with filter
`position >= position, status = Waiting` and update `$inc position 1`. -/
def updateMany (s : Store) (position : Nat) : Store :=
  s.map (fun t =>
    if position ≤ t.position ∧ t.status = Status.Waiting then { t with position := t.position + 1 }
    else t)

/-! ## POST /api/ticket (server.js lines 106-145) -/

/-- Response of `POST /api/ticket` and the collection afterwards; `number` and `position`
are the members of `ticket` in the 201 body. -/
structure IssueResponse where
  code : Nat
  number : Option String
  position : Option Nat
  store : Store
  deriving DecidableEq, Repr

/-- The handler of `POST /api/ticket`. `userId` and `issuedBy` are the members of the
request body (`none` when absent), `now` is `Date.now()` and `draws` feeds
`generateTicketNumber`. A validation error of `save()` is caught and answered with 500. -/
def issueTicket (s : Store) (now : Nat) (draws : Nat → Nat)
    (userId : Option IdParam) (issuedBy : Option String) : IssueResponse :=
  match userId, issuedBy with
  | some uid, some issuer =>
    if uid.truthy = false ∨ issuer = "" then ⟨400, none, none, s⟩
    else
      let position := countDocuments s Status.Waiting + 1
      let ticketNumber := generateTicketNumber draws
      match newTicket (freshId s) now
          { userId := uid
            ticketNumber := ticketNumber
            position := position
            status := "Waiting"
            issuedBy := issuer } with
      | none => ⟨500, none, none, s⟩
      | some doc =>
        let s1 := s ++ [doc]
        let s2 := updateMany s1 position
        ⟨201, some doc.ticketNumber, some doc.position, s2⟩
  | _, _ => ⟨400, none, none, s⟩

/-! ## GET /api/queue (server.js lines 148-169) -/

/-- One element of the array returned by `GET /api/queue`. -/
structure QueueEntry where
  _id : ObjectId
  ticketNumber : String
  name : String
  issuedBy : String
  status : Status
  position : Nat
  deriving DecidableEq, Repr

/-- The order of `.sort({ issuedAt: 1 })`. -/
def byIssuedAt (a b : Ticket) : Prop := a.issuedAt ≤ b.issuedAt

instance : DecidableRel byIssuedAt := fun a b => inferInstanceAs (Decidable (a.issuedAt ≤ b.issuedAt))

/-- The order of `.sort({ position: 1 })`. -/
def byPosition (a b : Ticket) : Prop := a.position ≤ b.position

instance : DecidableRel byPosition := fun a b => inferInstanceAs (Decidable (a.position ≤ b.position))

/-- The filter `status: $in: ['Waiting', 'Being Served']`. -/
def inQueue (t : Ticket) : Bool :=
  decide (t.status = Status.Waiting ∨ t.status = Status.BeingServed)

/-- `.populate('userId', 'name')` followed by `ticket.userId?.name`. -/
def populateName (users : List User) (uid : ObjectId) : Option String :=
  (users.find? (fun u => u._id = uid)).map (fun u => u.name)

/-- The callback of `queue.map` in `GET /api/queue`. -/
def formatEntry (users : List User) (p : Nat × Ticket) : QueueEntry :=
  { _id := p.2._id
    ticketNumber := p.2.ticketNumber
    name := orElseStr (populateName users p.2.userId) "Unknown"
    issuedBy := orElseStr p.2.issuedBy "Unknown"
    status := p.2.status
    position := p.1 + 1 }

/-- The tickets fetched by `GET /api/queue`, sorted. -/
def fetchQueue (s : Store) : List Ticket :=
  (s.filter inQueue).insertionSort byIssuedAt

/-- The array returned by `GET /api/queue` (status 200). -/
def listQueue (users : List User) (s : Store) : List QueueEntry :=
  (fetchQueue s).enum.map (formatEntry users)

/-! ## PUT /api/ticket/:ticketId (server.js lines 172-188) -/

/-- Response of the two `PUT` routes and the collection afterwards. -/
structure PutResponse where
  code : Nat
  ticket : Option Ticket
  store : Store
  deriving DecidableEq, Repr

/-- The handler of `PUT /api/ticket/:ticketId`; `status` is the member of the request
body. `Ticket.findById` rejects a `ticketId` that does not cast to ObjectId and `save()`
rejects a status outside the schema enum; the handler catches both and answers 500. -/
def advanceTicket (s : Store) (ticketId : IdParam) (status : Option String) : PutResponse :=
  match ticketId with
  | IdParam.malformed _ => ⟨500, none, s⟩
  | IdParam.objectId id =>
    match findById s id with
    | none => ⟨404, none, s⟩
    | some ticket =>
      match status.bind Status.ofString? with
      | none => ⟨500, none, s⟩
      | some st =>
        ⟨200, some { ticket with status := st },
          updateById s ticket._id (fun t => { t with status := st })⟩

/-! ## PUT /api/complete-ticket/:ticketId (server.js lines 191-216) -/

/-- The `forEach` of server.js lines 206-209 with every `save()` applied: the ticket at
`index` of `remainingTickets` gets `position = index + 1`. -/
def renumber (s : Store) (remainingTickets : List Ticket) : Store :=
  remainingTickets.enum.foldl
    (fun acc p => updateById acc p.2._id (fun t => { t with position := p.1 + 1 })) s

/-- The handler of `PUT /api/complete-ticket/:ticketId`. `Ticket.findById` rejects a
`ticketId` that does not cast to ObjectId; the handler catches that and answers 500. -/
def completeTicket (s : Store) (ticketId : IdParam) : PutResponse :=
  match ticketId with
  | IdParam.malformed _ => ⟨500, none, s⟩
  | IdParam.objectId id =>
    match findById s id with
    | none => ⟨400, none, s⟩
    | some ticket =>
      if ticket.status ≠ Status.BeingServed then ⟨400, none, s⟩
      else
        let s1 := updateById s ticket._id (fun t => { t with status := Status.Completed })
        let remainingTickets :=
          (s1.filter (fun t => t.status = Status.BeingServed)).insertionSort byPosition
        ⟨200, none, renumber s1 remainingTickets⟩

/-! ## Sequences of status requests -/

/-- A request to one of the two routes that change a ticket's status. -/
inductive Request where
  | advance (ticketId : IdParam) (status : Option String)
  | complete (ticketId : IdParam)
  deriving DecidableEq, Repr

/-- The collection after serving one request. -/
def step (s : Store) : Request → Store
  | Request.advance ticketId status => (advanceTicket s ticketId status).store
  | Request.complete ticketId => (completeTicket s ticketId).store

/-- The collection after serving the requests one after the other. -/
def run (s : Store) (reqs : List Request) : Store :=
  reqs.foldl step s

/-- A request is forward in `s` unless it is an `advance` of a stored ticket to a valid
status that comes earlier in the order Waiting, Being Served, Completed than the status the
ticket has in `s`. -/
def forward (s : Store) : Request → Bool
  | Request.advance (IdParam.objectId id) status =>
    match findById s id, status.bind Status.ofString? with
    | some t, some st => decide (t.status.rank ≤ st.rank)
    | _, _ => true
  | Request.advance (IdParam.malformed _) _ => true
  | Request.complete _ => true

/-- Every request of the sequence is forward in the collection it is served on. -/
def allForward : Store → List Request → Bool
  | _, [] => true
  | s, r :: rs => forward s r && allForward (step s r) rs

/-! ## Auxiliary definitions for the proofs -/

instance : IsTotal Ticket byIssuedAt := ⟨fun a b => Nat.le_total a.issuedAt b.issuedAt⟩

instance : IsTrans Ticket byIssuedAt := ⟨fun _ _ _ h1 h2 => Nat.le_trans h1 h2⟩

instance : IsTotal Ticket byPosition := ⟨fun a b => Nat.le_total a.position b.position⟩

instance : IsTrans Ticket byPosition := ⟨fun _ _ _ h1 h2 => Nat.le_trans h1 h2⟩

/-- The position that the renumbering loop writes to the document `id`, if it writes one:
`index + 1` for the first pair `(index, ticket)` whose ticket has that `_id`. -/
def newPosition (l : List (Nat × Ticket)) (id : ObjectId) : Option Nat :=
  (l.find? (fun p => p.2._id = id)).map (fun p => p.1 + 1)

/-- The document `t` after the renumbering loop ran over the pairs `l`. -/
def renumbered (l : List (Nat × Ticket)) (t : Ticket) : Ticket :=
  match newPosition l t._id with
  | some p => { t with position := p }
  | none => t

/-- The Being Served tickets other than `id`, in the order of `.sort({ position: 1 })`. -/
def othersServed (s : Store) (id : ObjectId) : List Ticket :=
  (s.filter (fun x => x.status = Status.BeingServed ∧ x._id ≠ id)).insertionSort byPosition

/-! ## Sample data -/

/-- A ticket that is Being Served at stored position 1. -/
def sampleB : Ticket := ⟨1, 7, "B7K2QX", 1, Status.BeingServed, 10⟩

/-- A ticket that is Being Served at stored position 2. -/
def sampleD : Ticket := ⟨2, 8, "D0M4ZP", 2, Status.BeingServed, 20⟩

/-- A ticket that is Waiting. -/
def sampleW : Ticket := ⟨3, 9, "W5H1RT", 1, Status.Waiting, 30⟩

/-- A ticket that is Completed. -/
def sampleC : Ticket := ⟨4, 9, "C3N8YU", 1, Status.Completed, 5⟩

/-- A collection with one ticket of each kind. -/
def sampleStore : Store := [sampleB, sampleD, sampleW, sampleC]

/-- A user directory with the owner of `sampleW` and `sampleC`. -/
def sampleUsers : List User := [⟨9, "Abebe", "abebe@example.com", "x", "user"⟩]

/-- The draws 0, 7, 14, 21, 28, 35. -/
def sampleDraws (i : Nat) : Nat := 7 * i

/-! ## Facts about generateTicketNumber -/

theorem charAt_characters (k : Nat) (h : k < 36) :
    ∃ c, charAt characters k = String.singleton c ∧ isUpperAlnum c = true := by
  interval_cases k <;> exact ⟨_, rfl, by decide⟩

theorem generateLoop_spec (draws : Nat → Nat) :
    ∀ (n i : Nat) (acc : String), (∀ k, i ≤ k → k < i + n → draws k < 36) →
      (generateLoop draws n i acc).length = acc.length + n ∧
      ∀ c ∈ (generateLoop draws n i acc).data, c ∈ acc.data ∨ isUpperAlnum c = true := by
  intro n
  induction n with
  | zero => intro i acc _; exact ⟨rfl, fun c hc => Or.inl hc⟩
  | succ n ih =>
    intro i acc h
    obtain ⟨c, hc, hal⟩ := charAt_characters (draws i) (h i (le_refl i) (by omega))
    have step := ih (i + 1) (acc ++ charAt characters (draws i)) (fun k h1 h2 => h k (by omega) (by omega))
    simp only [generateLoop]
    rw [hc] at step
    rw [hc]
    refine ⟨?_, ?_⟩
    · have h1 : (String.singleton c).length = 1 := rfl
      rw [step.1, String.length_append, h1]
      omega
    · intro d hd
      rcases step.2 d hd with h1 | h1
      · rw [String.data_append] at h1
        rcases List.mem_append.mp h1 with h2 | h2
        · exact Or.inl h2
        · right
          have h3 : (String.singleton c).data = [c] := rfl
          rw [h3] at h2
          rw [List.mem_singleton.mp h2]; exact hal
      · exact Or.inr h1

/-! ## Facts about the collection operations -/

theorem findById_eq_none (s : Store) (id : ObjectId) (h : ∀ t ∈ s, t._id ≠ id) :
    findById s id = none := by
  unfold findById
  rw [List.find?_eq_none]
  intro t ht
  simpa using h t ht

theorem findById_of_mem (s : Store) (t : Ticket) (hid : (s.map (fun x => x._id)).Nodup)
    (ht : t ∈ s) : findById s t._id = some t := by
  unfold findById
  induction s with
  | nil => cases ht
  | cons a l ih =>
    rw [List.map_cons, List.nodup_cons] at hid
    rcases List.mem_cons.mp ht with h | h
    · subst h; simp
    · have hne : a._id ≠ t._id := by
        intro heq
        apply hid.1
        rw [heq]
        exact List.mem_map_of_mem (fun x => x._id) h
      rw [List.find?_cons_of_neg _ (by simpa using hne)]
      exact ih hid.2 h

theorem countDocuments_map (s : Store) (g : Ticket → Ticket) (st : Status)
    (hg : ∀ t, (g t).status = t.status) :
    countDocuments (s.map g) st = countDocuments s st := by
  unfold countDocuments
  rw [List.filter_map, List.length_map]
  congr 2
  funext t
  simp [Function.comp, hg t]

theorem countDocuments_updateMany (s : Store) (p : Nat) (st : Status) :
    countDocuments (updateMany s p) st = countDocuments s st := by
  unfold updateMany
  apply countDocuments_map
  intro t
  split <;> rfl

theorem countDocuments_append_singleton (s : Store) (doc : Ticket) (st : Status)
    (h : doc.status = st) : countDocuments (s ++ [doc]) st = countDocuments s st + 1 := by
  unfold countDocuments
  simp [List.filter_append, h]

theorem generateTicketNumber_ne_empty (draws : Nat → Nat) (h : ∀ i, i < 6 → draws i < 36) :
    generateTicketNumber draws ≠ "" := by
  intro heq
  have hlen := (generateLoop_spec draws 6 0 "" (fun k _ hk => h k (by omega))).1
  unfold generateTicketNumber at heq
  rw [heq] at hlen
  exact absurd hlen (by decide)

theorem issueTicket_ok (s : Store) (now : Nat) (draws : Nat → Nat) (uid : ObjectId)
    (issuer : String) (hissuer : issuer ≠ "") (hdraws : ∀ i, i < 6 → draws i < 36) :
    issueTicket s now draws (some (IdParam.objectId uid)) (some issuer) =
      ⟨201, some (generateTicketNumber draws), some (countDocuments s Status.Waiting + 1),
        updateMany (s ++ [⟨freshId s, uid, generateTicketNumber draws,
          countDocuments s Status.Waiting + 1, Status.Waiting, now⟩])
          (countDocuments s Status.Waiting + 1)⟩ := by
  have hne := generateTicketNumber_ne_empty draws hdraws
  have hw : Status.ofString? "Waiting" = some Status.Waiting := by decide
  have hguard : ¬ ((IdParam.objectId uid).truthy = false ∨ issuer = "") := by
    simp [IdParam.truthy, hissuer]
  simp only [issueTicket, if_neg hguard, newTicket, hw, if_neg hne]

/-! ## Facts about the queue listing -/

theorem length_filter_inQueue (s : Store) :
    (s.filter inQueue).length
      = countDocuments s Status.Waiting + countDocuments s Status.BeingServed := by
  unfold countDocuments
  induction s with
  | nil => rfl
  | cons a l ih =>
    cases hs : a.status <;> simp [List.filter_cons, inQueue, hs] <;> omega

theorem listQueue_getElem? (users : List User) (s : Store) (i : Nat)
    (h : i < (fetchQueue s).length) :
    (listQueue users s)[i]? = some (formatEntry users (i, (fetchQueue s)[i])) := by
  unfold listQueue
  rw [List.getElem?_map, List.getElem?_enum, List.getElem?_eq_getElem h]
  rfl

theorem listQueue_map_position (users : List User) (s : Store) (f : Ticket → Nat) :
    listQueue users (s.map (fun t => { t with position := f t })) = listQueue users s := by
  unfold listQueue fetchQueue
  have hfilter : (s.map (fun t => { t with position := f t })).filter inQueue
      = (s.filter inQueue).map (fun t => { t with position := f t }) := by
    rw [List.filter_map]
    rfl
  rw [hfilter, ← List.map_insertionSort (r := byIssuedAt) (s := byIssuedAt)
    (fun t => { t with position := f t }) (s.filter inQueue) (fun a _ b _ => Iff.rfl),
    List.enum_map, List.map_map]
  rfl

/-! ## Facts about the renumbering of `complete-ticket` -/

theorem renumbered_id (l : List (Nat × Ticket)) (t : Ticket) : (renumbered l t)._id = t._id := by
  unfold renumbered
  split <;> rfl

theorem renumbered_status (l : List (Nat × Ticket)) (t : Ticket) :
    (renumbered l t).status = t.status := by
  unfold renumbered
  split <;> rfl

theorem newPosition_eq_none (l : List (Nat × Ticket)) (id : ObjectId)
    (h : id ∉ l.map (fun p => p.2._id)) : newPosition l id = none := by
  unfold newPosition
  rw [Option.map_eq_none', List.find?_eq_none]
  intro p hp
  have hne : p.2._id ≠ id := by
    intro heq
    exact h (heq ▸ List.mem_map_of_mem (fun p => p.2._id) hp)
  simpa using hne

theorem foldl_updateById (l : List (Nat × Ticket)) :
    (l.map (fun p => p.2._id)).Nodup → ∀ s : Store,
      l.foldl (fun acc p => updateById acc p.2._id (fun t => { t with position := p.1 + 1 })) s
        = s.map (renumbered l) := by
  induction l with
  | nil =>
    intro _ s
    have h : renumbered [] = id := by
      funext t
      rfl
    rw [h, List.map_id]
    rfl
  | cons a rest ih =>
    intro hnd s
    rw [List.map_cons, List.nodup_cons] at hnd
    rw [List.foldl_cons, ih hnd.2, updateById, List.map_map]
    apply List.map_congr_left
    intro t _
    simp only [Function.comp]
    by_cases hid : t._id = a.2._id
    · rw [if_pos hid]
      have h1 : newPosition rest t._id = none := by
        rw [hid]
        exact newPosition_eq_none rest _ hnd.1
      have h2 : newPosition (a :: rest) t._id = some (a.1 + 1) := by
        simp [newPosition, List.find?_cons, hid]
      simp only [renumbered, h1, h2]
    · rw [if_neg hid]
      have h2 : newPosition (a :: rest) t._id = newPosition rest t._id := by
        have hne : ¬ a.2._id = t._id := fun h => hid h.symm
        simp [newPosition, List.find?_cons, hne]
      simp only [renumbered, h2]

theorem map_id_enumFrom (l : List Ticket) (k : Nat) :
    (l.enumFrom k).map (fun p => p.2._id) = l.map (fun t => t._id) := by
  induction l generalizing k with
  | nil => rfl
  | cons a rest ih => simp [List.enumFrom_cons, ih]

theorem newPosition_enumFrom (l : List Ticket) :
    (l.map (fun t => t._id)).Nodup → ∀ (k i : Nat) (h : i < l.length),
      newPosition (l.enumFrom k) (l[i])._id = some (k + i + 1) := by
  induction l with
  | nil => intro _ k i h; cases h
  | cons a rest ih =>
    intro hnd k i h
    rw [List.map_cons, List.nodup_cons] at hnd
    cases i with
    | zero => simp [newPosition, List.enumFrom_cons, List.find?_cons]
    | succ j =>
      have hj : j < rest.length := by simpa using h
      have hmem : (rest[j])._id ∈ rest.map (fun t => t._id) :=
        List.mem_map_of_mem (fun t => t._id) (List.getElem_mem hj)
      have hne : ¬ a._id = (rest[j])._id := fun heq => hnd.1 (heq ▸ hmem)
      have step := ih hnd.2 (k + 1) j hj
      simp only [List.getElem_cons_succ]
      have h2 : newPosition ((a :: rest).enumFrom k) (rest[j])._id
          = newPosition (rest.enumFrom (k + 1)) (rest[j])._id := by
        simp [newPosition, List.enumFrom_cons, List.find?_cons, hne]
      rw [h2, step]
      congr 1
      omega

theorem renumber_eq (s : Store) (l : List Ticket) (h : (l.map (fun t => t._id)).Nodup) :
    renumber s l = s.map (renumbered l.enum) := by
  unfold renumber
  exact foldl_updateById l.enum (by rw [List.enum, map_id_enumFrom]; exact h) s

theorem filter_served_updateById (s : Store) (id : ObjectId) :
    (updateById s id (fun t => { t with status := Status.Completed })).filter
        (fun t => t.status = Status.BeingServed)
      = s.filter (fun x => x.status = Status.BeingServed ∧ x._id ≠ id) := by
  unfold updateById
  induction s with
  | nil => rfl
  | cons a l ih =>
    rw [List.map_cons, List.filter_cons, List.filter_cons, ih]
    by_cases hid : a._id = id
    · simp [hid]
    · simp [hid]

theorem othersServed_perm (s : Store) (id : ObjectId) :
    (othersServed s id).Perm
      (s.filter (fun x => x.status = Status.BeingServed ∧ x._id ≠ id)) :=
  List.perm_insertionSort _ _

theorem othersServed_nodup (s : Store) (id : ObjectId) (hid : (s.map (fun x => x._id)).Nodup) :
    ((othersServed s id).map (fun x => x._id)).Nodup := by
  have hsub : ((s.filter (fun x => x.status = Status.BeingServed ∧ x._id ≠ id)).map
      (fun x => x._id)).Nodup :=
    List.Nodup.sublist (List.Sublist.map _ (List.filter_sublist s)) hid
  exact ((othersServed_perm s id).map (fun x => x._id)).nodup_iff.mpr hsub

theorem othersServed_mem (s : Store) (id : ObjectId) (x : Ticket) (hx : x ∈ othersServed s id) :
    x ∈ s ∧ x.status = Status.BeingServed ∧ x._id ≠ id := by
  have h := (othersServed_perm s id).mem_iff.mp hx
  rw [List.mem_filter] at h
  exact ⟨h.1, by simpa using h.2⟩

theorem findById_map (s : Store) (g : Ticket → Ticket) (id : ObjectId)
    (hg : ∀ t, (g t)._id = t._id) : findById (s.map g) id = (findById s id).map g := by
  unfold findById
  rw [List.find?_map]
  congr 2
  funext t
  simp [Function.comp, hg t]

theorem completeTicket_ok (s : Store) (t : Ticket) (hid : (s.map (fun x => x._id)).Nodup)
    (ht : t ∈ s) (hst : t.status = Status.BeingServed) :
    completeTicket s (IdParam.objectId t._id) =
      ⟨200, none, (updateById s t._id (fun x => { x with status := Status.Completed })).map
        (renumbered (othersServed s t._id).enum)⟩ := by
  have hne : ¬ t.status ≠ Status.BeingServed := fun h => h hst
  simp only [completeTicket, findById_of_mem s t hid ht, if_neg hne]
  rw [filter_served_updateById]
  change PutResponse.mk 200 none (renumber _ (othersServed s t._id)) = _
  rw [renumber_eq _ _ (othersServed_nodup s t._id hid)]

theorem findById_completed (s : Store) (t x : Ticket) (hid : (s.map (fun y => y._id)).Nodup)
    (hx : x ∈ s) :
    findById ((updateById s t._id (fun y => { y with status := Status.Completed })).map
        (renumbered (othersServed s t._id).enum)) x._id
      = some (renumbered (othersServed s t._id).enum
          (if x._id = t._id then { x with status := Status.Completed } else x)) := by
  rw [findById_map _ _ _ (renumbered_id _), updateById, findById_map, findById_of_mem s x hid hx]
  · rfl
  · intro y
    split <;> rfl

theorem renumbered_getElem (l : List Ticket) (hnd : (l.map (fun t => t._id)).Nodup) (i : Nat)
    (h : i < l.length) : renumbered l.enum (l[i]) = { l[i] with position := i + 1 } := by
  have hp := newPosition_enumFrom l hnd 0 i h
  rw [Nat.zero_add] at hp
  simp only [renumbered, List.enum, hp]

theorem filter_served_map_renumbered (l : List Ticket) (e : List (Nat × Ticket)) :
    (l.map (renumbered e)).filter (fun x => x.status = Status.BeingServed)
      = (l.filter (fun x => x.status = Status.BeingServed)).map (renumbered e) := by
  rw [List.filter_map]
  congr 2
  funext x
  simp [Function.comp, renumbered_status]

theorem map_position_renumbered (l : List Ticket) (hnd : (l.map (fun t => t._id)).Nodup) :
    l.map (fun x => (renumbered l.enum x).position) = List.range' 1 l.length := by
  apply List.ext_getElem?
  intro i
  by_cases h : i < l.length
  · rw [List.getElem?_map, List.getElem?_eq_getElem h, List.getElem?_range' _ _ h,
      Option.map_some', renumbered_getElem l hnd i h]
    simp [Nat.add_comm]
  · have h1 : l.length ≤ i := Nat.le_of_not_lt h
    rw [List.getElem?_eq_none (by simpa using h1), List.getElem?_eq_none (by simpa using h1)]

/-! ## Facts about sequences of status requests -/

theorem findById_some (s : Store) (id : ObjectId) (t : Ticket) (h : findById s id = some t) :
    t ∈ s ∧ t._id = id := by
  unfold findById at h
  exact ⟨List.mem_of_find?_eq_some h, by simpa using List.find?_some h⟩

theorem ids_updateById (s : Store) (id : ObjectId) (f : Ticket → Ticket)
    (hf : ∀ t, (f t)._id = t._id) :
    (updateById s id f).map (fun t => t._id) = s.map (fun t => t._id) := by
  unfold updateById
  rw [List.map_map]
  apply List.map_congr_left
  intro t _
  simp only [Function.comp]
  split
  · exact hf t
  · rfl

theorem ids_renumber (s : Store) (l : List Ticket) :
    (renumber s l).map (fun t => t._id) = s.map (fun t => t._id) := by
  unfold renumber
  generalize l.enum = e
  induction e generalizing s with
  | nil => rfl
  | cons a rest ih =>
    rw [List.foldl_cons, ih]
    exact ids_updateById _ _ _ (fun _ => rfl)

theorem ids_advanceTicket (s : Store) (tid : IdParam) (status : Option String) :
    (advanceTicket s tid status).store.map (fun t => t._id) = s.map (fun t => t._id) := by
  cases tid with
  | malformed raw => rfl
  | objectId id =>
    simp only [advanceTicket]
    cases findById s id with
    | none => rfl
    | some ticket =>
      cases status.bind Status.ofString? with
      | none => rfl
      | some st => exact ids_updateById _ _ _ (fun _ => rfl)

theorem ids_completeTicket (s : Store) (tid : IdParam) :
    (completeTicket s tid).store.map (fun t => t._id) = s.map (fun t => t._id) := by
  cases tid with
  | malformed raw => rfl
  | objectId id =>
    simp only [completeTicket]
    cases findById s id with
    | none => rfl
    | some ticket =>
      by_cases hst : ticket.status ≠ Status.BeingServed
      · simp only [if_pos hst]
      · simp only [if_neg hst]
        rw [ids_renumber]
        exact ids_updateById _ _ _ (fun _ => rfl)

theorem ids_step (s : Store) (r : Request) :
    (step s r).map (fun t => t._id) = s.map (fun t => t._id) := by
  cases r with
  | advance tid status => exact ids_advanceTicket s tid status
  | complete tid => exact ids_completeTicket s tid

theorem rank_le_completed (st : Status) : st.rank ≤ Status.Completed.rank := by
  cases st <;> decide

theorem advanceTicket_mono (s : Store) (tid : IdParam) (status : Option String) (t : Ticket)
    (hid : (s.map (fun x => x._id)).Nodup)
    (hfw : forward s (Request.advance tid status) = true) (hmem : t ∈ s) :
    ∃ t2, findById (advanceTicket s tid status).store t._id = some t2 ∧
      t.status.rank ≤ t2.status.rank := by
  have ht := findById_of_mem s t hid hmem
  cases tid with
  | malformed raw => exact ⟨t, ht, le_refl _⟩
  | objectId id =>
    simp only [forward] at hfw
    simp only [advanceTicket]
    cases hf : findById s id with
    | none => exact ⟨t, ht, le_refl _⟩
    | some ticket =>
      cases hs : status.bind Status.ofString? with
      | none => exact ⟨t, ht, le_refl _⟩
      | some st =>
        rw [hf, hs] at hfw
        have hle : ticket.status.rank ≤ st.rank := by simpa using hfw
        obtain ⟨hmem2, _⟩ := findById_some s id ticket hf
        simp only []
        rw [updateById, findById_map _ _ _ (by intro y; split <;> rfl), ht, Option.map_some']
        refine ⟨_, rfl, ?_⟩
        by_cases heq : t._id = ticket._id
        · have hsame : ticket = t := by
            have h1 := findById_of_mem s ticket hid hmem2
            rw [← heq, ht] at h1
            exact (Option.some.inj h1).symm
          rw [if_pos heq]
          rw [hsame] at hle
          exact hle
        · rw [if_neg heq]

theorem completeTicket_mono (s : Store) (tid : IdParam) (t : Ticket)
    (hid : (s.map (fun x => x._id)).Nodup) (hmem : t ∈ s) :
    ∃ t2, findById (completeTicket s tid).store t._id = some t2 ∧
      t.status.rank ≤ t2.status.rank := by
  have ht := findById_of_mem s t hid hmem
  cases tid with
  | malformed raw => exact ⟨t, ht, le_refl _⟩
  | objectId id =>
    cases hf : findById s id with
    | none =>
      have h0 : completeTicket s (IdParam.objectId id) = ⟨400, none, s⟩ := by
        simp only [completeTicket, hf]
      rw [h0]
      exact ⟨t, ht, le_refl _⟩
    | some ticket =>
      obtain ⟨hmem2, hid2⟩ := findById_some s id ticket hf
      by_cases hst : ticket.status = Status.BeingServed
      · subst hid2
        rw [completeTicket_ok s ticket hid hmem2 hst]
        simp only []
        rw [findById_completed s ticket t hid hmem]
        refine ⟨_, rfl, ?_⟩
        rw [renumbered_status]
        split
        · exact rank_le_completed _
        · exact le_refl _
      · have h0 : completeTicket s (IdParam.objectId id) = ⟨400, none, s⟩ := by
          simp only [completeTicket, hf, if_pos hst]
        rw [h0]
        exact ⟨t, ht, le_refl _⟩

theorem step_mono (s : Store) (r : Request) (id : ObjectId) (t : Ticket)
    (hid : (s.map (fun x => x._id)).Nodup) (hfw : forward s r = true)
    (ht : findById s id = some t) :
    ∃ t2, findById (step s r) id = some t2 ∧ t.status.rank ≤ t2.status.rank := by
  obtain ⟨hmem, hidt⟩ := findById_some s id t ht
  subst hidt
  cases r with
  | advance tid status => exact advanceTicket_mono s tid status t hid hfw hmem
  | complete tid => exact completeTicket_mono s tid t hid hmem

theorem run_mono (reqs : List Request) :
    ∀ (s : Store) (id : ObjectId) (t : Ticket), (s.map (fun x => x._id)).Nodup →
      allForward s reqs = true → findById s id = some t →
      ∃ t2, findById (run s reqs) id = some t2 ∧ t.status.rank ≤ t2.status.rank := by
  induction reqs with
  | nil => intro s id t _ _ ht; exact ⟨t, ht, le_refl _⟩
  | cons r rest ih =>
    intro s id t hid hfw ht
    rw [allForward, Bool.and_eq_true] at hfw
    obtain ⟨t1, h1, hle1⟩ := step_mono s r id t hid hfw.1 ht
    obtain ⟨t2, h2, hle2⟩ := ih (step s r) id t1 (by rw [ids_step]; exact hid) hfw.2 h1
    exact ⟨t2, h2, le_trans hle1 hle2⟩

theorem ids_run (reqs : List Request) :
    ∀ s : Store, (run s reqs).map (fun t => t._id) = s.map (fun t => t._id) := by
  induction reqs with
  | nil => intro s; rfl
  | cons r rest ih =>
    intro s
    show (run (step s r) rest).map (fun t => t._id) = _
    rw [ih, ids_step]

theorem allForward_append (pre post : List Request) :
    ∀ s : Store, allForward s (pre ++ post) = true →
      allForward s pre = true ∧ allForward (run s pre) post = true := by
  induction pre with
  | nil => intro s h; exact ⟨rfl, h⟩
  | cons r rest ih =>
    intro s h
    rw [List.cons_append, allForward, Bool.and_eq_true] at h
    have h2 := ih (step s r) h.2
    exact ⟨by rw [allForward, Bool.and_eq_true]; exact ⟨h.1, h2.1⟩, h2.2⟩

/-! ## What the collection holds after `POST /api/ticket` -/

theorem updateMany_append (s1 s2 : Store) (p : Nat) :
    updateMany (s1 ++ s2) p = updateMany s1 p ++ updateMany s2 p := by
  unfold updateMany
  exact List.map_append _ _ _

theorem issueTicket_store (s : Store) (now : Nat) (draws : Nat → Nat) (uid : ObjectId)
    (issuer : String) (hissuer : issuer ≠ "") (hdraws : ∀ i, i < 6 → draws i < 36) :
    (issueTicket s now draws (some (IdParam.objectId uid)) (some issuer)).store =
      updateMany s (countDocuments s Status.Waiting + 1) ++
        [⟨freshId s, uid, generateTicketNumber draws, countDocuments s Status.Waiting + 2,
          Status.Waiting, now⟩] := by
  rw [issueTicket_ok s now draws uid issuer hissuer hdraws]
  simp only []
  rw [updateMany_append]
  simp [updateMany]

theorem listQueue_issuedBy (users : List User) (s : Store) :
    ∀ e ∈ listQueue users s, e.issuedBy = "Unknown" := by
  intro e he
  unfold listQueue at he
  obtain ⟨p, _, hp⟩ := List.mem_map.mp he
  rw [← hp]
  rfl

/-! ## What `PUT /api/ticket/:ticketId` stores -/

theorem ofString?_toString (st : Status) : Status.ofString? st.toString = some st := by
  cases st <;> decide

theorem advanceTicket_found (s : Store) (id : ObjectId) (t : Ticket) (st : Status)
    (ht : findById s id = some t) :
    advanceTicket s (IdParam.objectId id) (some st.toString) =
      ⟨200, some { t with status := st },
        updateById s t._id (fun x => { x with status := st })⟩ := by
  have hs : (some st.toString).bind Status.ofString? = some st := ofString?_toString st
  simp only [advanceTicket, ht, hs]

theorem findById_advanced (s : Store) (id : ObjectId) (t : Ticket) (st : Status)
    (ht : findById s id = some t) :
    findById (updateById s t._id (fun x => { x with status := st })) id
      = some { t with status := st } := by
  rw [updateById, findById_map _ _ _ (by intro y; split <;> rfl), ht, Option.map_some',
    if_pos rfl]

/-! ## Verified properties -/

/-- C9: when each of the six draws is an index in 0..35, `generateTicketNumber` returns a
string of length exactly 6 whose characters are all in `[A-Z0-9]`. -/
theorem generateTicketNumber_matches (draws : Nat → Nat) (h : ∀ i, i < 6 → draws i < 36) :
    (generateTicketNumber draws).length = 6 ∧
      ∀ c ∈ (generateTicketNumber draws).data, isUpperAlnum c = true := by
  have hs := generateLoop_spec draws 6 0 "" (fun k _ hk => h k (by omega))
  refine ⟨by simpa using hs.1, ?_⟩
  intro c hc
  rcases hs.2 c hc with h1 | h1
  · cases h1
  · exact h1

/-- Witness for C9 at the draws 0, 7, 14, 21, 28, 35, which spell `AHOV29`. -/
theorem generateTicketNumber_matches_witness :
    generateTicketNumber sampleDraws = "AHOV29" ∧
      (generateTicketNumber sampleDraws).length = 6 ∧
      ∀ c ∈ (generateTicketNumber sampleDraws).data, isUpperAlnum c = true :=
  ⟨by decide, generateTicketNumber_matches sampleDraws (by intro i hi; show 7 * i < 36; omega)⟩

/-- C1 as amended: in a store with exactly `N` Waiting tickets, `POST /api/ticket` with a
userId that is a well-formed ObjectId and a non-empty issuedBy answers 201 with
`position = N + 1`, and the store afterwards holds exactly `N + 1` Waiting tickets; with a
non-empty userId that does not cast to ObjectId it answers 500 and stores nothing. -/
theorem issueTicket_position (s : Store) (N now : Nat) (draws : Nat → Nat) (uid : ObjectId)
    (issuer raw : String) (hN : countDocuments s Status.Waiting = N) (hissuer : issuer ≠ "")
    (hdraws : ∀ i, i < 6 → draws i < 36) (hraw : raw ≠ "") :
    ((issueTicket s now draws (some (IdParam.objectId uid)) (some issuer)).code = 201 ∧
      (issueTicket s now draws (some (IdParam.objectId uid)) (some issuer)).position
        = some (N + 1) ∧
      countDocuments (issueTicket s now draws (some (IdParam.objectId uid)) (some issuer)).store
        Status.Waiting = N + 1) ∧
      issueTicket s now draws (some (IdParam.malformed raw)) (some issuer)
        = ⟨500, none, none, s⟩ := by
  refine ⟨?_, ?_⟩
  · rw [issueTicket_ok s now draws uid issuer hissuer hdraws]
    refine ⟨rfl, by simp [hN], ?_⟩
    simp only []
    rw [countDocuments_updateMany, countDocuments_append_singleton _ _ _ rfl, hN]
  · have hguard : ¬ ((IdParam.malformed raw).truthy = false ∨ issuer = "") := by
      simp [IdParam.truthy, hraw, hissuer]
    simp only [issueTicket, if_neg hguard, newTicket]

/-- Witness for C1 as amended: `sampleStore` holds one Waiting ticket; the next ticket is
answered with position 2 and two tickets are Waiting afterwards, and the userId `xyz` is
answered with 500. -/
theorem issueTicket_position_witness :
    countDocuments sampleStore Status.Waiting = 1 ∧ "staff1" ≠ "" ∧ "xyz" ≠ "" ∧
      ((issueTicket sampleStore 40 sampleDraws (some (IdParam.objectId 9)) (some "staff1")).code
          = 201 ∧
        (issueTicket sampleStore 40 sampleDraws (some (IdParam.objectId 9))
          (some "staff1")).position = some (1 + 1) ∧
        countDocuments (issueTicket sampleStore 40 sampleDraws (some (IdParam.objectId 9))
          (some "staff1")).store Status.Waiting = 1 + 1) ∧
      issueTicket sampleStore 40 sampleDraws (some (IdParam.malformed "xyz")) (some "staff1")
        = ⟨500, none, none, sampleStore⟩ :=
  ⟨by decide, by decide, by decide,
    issueTicket_position sampleStore 1 40 sampleDraws 9 "staff1" "xyz" (by decide) (by decide)
      (by intro i hi; show 7 * i < 36; omega) (by decide)⟩

/-- C1 as stated fails: the non-empty userId `xyz` with the non-empty issuedBy `staff1` is
answered with 500, without a position, and the store keeps its one Waiting ticket. -/
theorem issueTicket_malformed_userId :
    (IdParam.malformed "xyz").truthy = true ∧ "staff1" ≠ "" ∧
      countDocuments sampleStore Status.Waiting = 1 ∧
      (issueTicket sampleStore 40 sampleDraws (some (IdParam.malformed "xyz"))
        (some "staff1")).code = 500 ∧
      (issueTicket sampleStore 40 sampleDraws (some (IdParam.malformed "xyz"))
        (some "staff1")).position = none ∧
      countDocuments (issueTicket sampleStore 40 sampleDraws (some (IdParam.malformed "xyz"))
        (some "staff1")).store Status.Waiting = 1 := by
  decide

/-- C5: completing a stored ticket whose status is Waiting or Completed answers 400 and
leaves the whole collection as it was. -/
theorem completeTicket_invalid_state (s : Store) (t : Ticket)
    (hid : (s.map (fun x => x._id)).Nodup) (ht : t ∈ s)
    (hst : t.status = Status.Waiting ∨ t.status = Status.Completed) :
    (completeTicket s (IdParam.objectId t._id)).code = 400 ∧
      (completeTicket s (IdParam.objectId t._id)).store = s := by
  have hne : t.status ≠ Status.BeingServed := by
    rcases hst with h | h <;> rw [h] <;> decide
  simp only [completeTicket, findById_of_mem s t hid ht, if_pos hne, and_self]

/-- Witness for C5: completing the Waiting ticket of `sampleStore`. -/
theorem completeTicket_invalid_state_witness :
    (sampleStore.map (fun x => x._id)).Nodup ∧ sampleW ∈ sampleStore ∧
      (completeTicket sampleStore (IdParam.objectId sampleW._id)).code = 400 ∧
      (completeTicket sampleStore (IdParam.objectId sampleW._id)).store = sampleStore :=
  ⟨by decide, by decide,
    completeTicket_invalid_state sampleStore sampleW (by decide) (by decide) (Or.inl rfl)⟩

/-- C6 as amended: completing a well-formed ObjectId that belongs to no stored ticket answers
400, the same code as for a ticket that is not Being Served, and leaves the collection as it
was; completing an id that does not cast to ObjectId answers 500 and leaves the collection as
it was. -/
theorem completeTicket_missing (s : Store) (id : ObjectId) (raw : String)
    (h : ∀ t ∈ s, t._id ≠ id) :
    (completeTicket s (IdParam.objectId id)).code = 400 ∧
      (completeTicket s (IdParam.objectId id)).store = s ∧
      (completeTicket s (IdParam.malformed raw)).code = 500 ∧
      (completeTicket s (IdParam.malformed raw)).store = s := by
  simp only [completeTicket, findById_eq_none s id h, and_self]

/-- Witness for C6 as amended: no ticket of `sampleStore` has the id 99. -/
theorem completeTicket_missing_witness :
    (∀ t ∈ sampleStore, t._id ≠ 99) ∧
      (completeTicket sampleStore (IdParam.objectId 99)).code = 400 ∧
      (completeTicket sampleStore (IdParam.objectId 99)).store = sampleStore ∧
      (completeTicket sampleStore (IdParam.malformed "xyz")).code = 500 ∧
      (completeTicket sampleStore (IdParam.malformed "xyz")).store = sampleStore :=
  ⟨by decide, completeTicket_missing sampleStore 99 "xyz" (by decide)⟩

/-- C6 as stated fails: completing the ObjectId 99, which no ticket of `sampleStore` has, is
answered with 400 and not with 404, the code that a stored Waiting ticket gets as well; and
completing the id `xyz` is answered with 500. -/
theorem completeTicket_missing_not_404 :
    findById sampleStore 99 = none ∧
      (completeTicket sampleStore (IdParam.objectId 99)).code = 400 ∧
      (completeTicket sampleStore (IdParam.objectId 99)).code ≠ 404 ∧
      (completeTicket sampleStore (IdParam.objectId 99)).code
        = (completeTicket sampleStore (IdParam.objectId sampleW._id)).code ∧
      (completeTicket sampleStore (IdParam.malformed "xyz")).code = 500 := by
  decide

/-- C7 as amended: `PUT /api/ticket/:ticketId` with a well-formed ObjectId that belongs to no
stored ticket answers 404, whatever status is requested, and leaves the collection as it was;
with an id that does not cast to ObjectId it answers 500 and leaves the collection as it
was. -/
theorem advanceTicket_missing (s : Store) (id : ObjectId) (raw : String)
    (status : Option String) (h : ∀ t ∈ s, t._id ≠ id) :
    (advanceTicket s (IdParam.objectId id) status).code = 404 ∧
      (advanceTicket s (IdParam.objectId id) status).store = s ∧
      (advanceTicket s (IdParam.malformed raw) status).code = 500 ∧
      (advanceTicket s (IdParam.malformed raw) status).store = s := by
  simp only [advanceTicket, findById_eq_none s id h, and_self]

/-- Witness for C7 as amended: advancing the ObjectId 99, which no ticket of `sampleStore`
has, and the id `xyz`. -/
theorem advanceTicket_missing_witness :
    (∀ t ∈ sampleStore, t._id ≠ 99) ∧
      (advanceTicket sampleStore (IdParam.objectId 99) (some "Being Served")).code = 404 ∧
      (advanceTicket sampleStore (IdParam.objectId 99) (some "Being Served")).store
        = sampleStore ∧
      (advanceTicket sampleStore (IdParam.malformed "xyz") (some "Being Served")).code = 500 ∧
      (advanceTicket sampleStore (IdParam.malformed "xyz") (some "Being Served")).store
        = sampleStore :=
  ⟨by decide,
    advanceTicket_missing sampleStore 99 "xyz" (some "Being Served") (by decide)⟩

/-- C7 as stated fails: the id `xyz` belongs to no ticket of `sampleStore`, and advancing it
is answered with 500 and not with 404. -/
theorem advanceTicket_malformed_id :
    (advanceTicket sampleStore (IdParam.malformed "xyz") (some "Being Served")).code = 500 ∧
      (advanceTicket sampleStore (IdParam.malformed "xyz") (some "Being Served")).code ≠ 404 ∧
      (advanceTicket sampleStore (IdParam.malformed "xyz") (some "Being Served")).store
        = sampleStore := by
  decide

/-- C3: `GET /api/queue` lists exactly the tickets that are Waiting or Being Served, in
non-decreasing `issuedAt` order, the entry at index `i` (0-based) carrying position `i + 1`,
so the positions are `1..K` with `K = |Waiting| + |Being Served|`; overwriting the stored
positions of the tickets does not change the listing. -/
theorem listQueue_spec (users : List User) (s : Store) :
    ∃ q : List Ticket,
      q.Perm (s.filter (fun t => t.status = Status.Waiting ∨ t.status = Status.BeingServed)) ∧
      q.Sorted (fun a b => a.issuedAt ≤ b.issuedAt) ∧
      (listQueue users s).length = q.length ∧
      q.length = countDocuments s Status.Waiting + countDocuments s Status.BeingServed ∧
      (listQueue users s).map (fun e => e.position) = List.range' 1 q.length ∧
      (∀ (i : Nat) (h : i < q.length), ∃ e, (listQueue users s)[i]? = some e ∧
        e._id = q[i]._id ∧ e.ticketNumber = q[i].ticketNumber ∧ e.status = q[i].status ∧
        e.position = i + 1) ∧
      ∀ f : Ticket → Nat,
        listQueue users (s.map (fun t => { t with position := f t })) = listQueue users s := by
  refine ⟨fetchQueue s, List.perm_insertionSort _ _, List.sorted_insertionSort byIssuedAt _,
    by simp [listQueue], ?_, ?_, ?_, listQueue_map_position users s⟩
  · rw [← length_filter_inQueue]
    exact List.length_insertionSort _ _
  · apply List.ext_getElem?
    intro i
    by_cases h : i < (fetchQueue s).length
    · rw [List.getElem?_map, listQueue_getElem? users s i h, List.getElem?_range' _ _ h]
      simp [formatEntry, Nat.add_comm]
    · have h1 : (fetchQueue s).length ≤ i := Nat.le_of_not_lt h
      rw [List.getElem?_eq_none (by simpa [listQueue] using h1),
        List.getElem?_eq_none (by simpa using h1)]
  · intro i h
    exact ⟨_, listQueue_getElem? users s i h, rfl, rfl, rfl, rfl⟩

/-- C4: completing a stored ticket `t` that is Being Served answers 200 and leaves `t`
Completed; with all renumbering writes applied, the `M` other Being Served tickets, taken in
non-decreasing order of their prior stored position, end with positions `1, 2, ..., M`, they
are exactly the tickets that are Being Served afterwards, and every value of `1..M` is used
once. -/
theorem completeTicket_renumbers (s : Store) (t : Ticket)
    (hid : (s.map (fun x => x._id)).Nodup) (ht : t ∈ s) (hst : t.status = Status.BeingServed) :
    (completeTicket s (IdParam.objectId t._id)).code = 200 ∧
      (findById (completeTicket s (IdParam.objectId t._id)).store t._id).map (fun x => x.status)
        = some Status.Completed ∧
      ∃ others : List Ticket,
        others.Perm (s.filter (fun x => x.status = Status.BeingServed ∧ x._id ≠ t._id)) ∧
        others.Sorted (fun a b => a.position ≤ b.position) ∧
        (∀ (i : Nat) (h : i < others.length),
          findById (completeTicket s (IdParam.objectId t._id)).store (others[i])._id
            = some { others[i] with position := i + 1 }) ∧
        (((completeTicket s (IdParam.objectId t._id)).store.filter
          (fun x => x.status = Status.BeingServed)).map
          (fun x => x._id)).Perm (others.map (fun x => x._id)) ∧
        (((completeTicket s (IdParam.objectId t._id)).store.filter
          (fun x => x.status = Status.BeingServed)).map
          (fun x => x.position)).Perm (List.range' 1 others.length) := by
  rw [completeTicket_ok s t hid ht hst]
  have hnd := othersServed_nodup s t._id hid
  have hperm := othersServed_perm s t._id
  have hfilter : ((updateById s t._id (fun x => { x with status := Status.Completed })).map
      (renumbered (othersServed s t._id).enum)).filter (fun x => x.status = Status.BeingServed)
      = (s.filter (fun x => x.status = Status.BeingServed ∧ x._id ≠ t._id)).map
          (renumbered (othersServed s t._id).enum) := by
    rw [filter_served_map_renumbered, filter_served_updateById]
  refine ⟨rfl, ?_, othersServed s t._id, hperm, List.sorted_insertionSort byPosition _, ?_, ?_, ?_⟩
  · simp only []
    rw [findById_completed s t t hid ht, if_pos rfl, Option.map_some', renumbered_status]
  · intro i h
    have hmem := othersServed_mem s t._id _ (List.getElem_mem h)
    simp only []
    rw [findById_completed s t _ hid hmem.1, if_neg hmem.2.2, renumbered_getElem _ hnd i h]
  · simp only []
    rw [hfilter, List.map_map]
    have hfun : ((fun x : Ticket => x._id) ∘ renumbered (othersServed s t._id).enum)
        = fun x => x._id := by
      funext x
      exact renumbered_id _ x
    rw [hfun]
    exact (hperm.map _).symm
  · simp only []
    rw [hfilter, List.map_map, ← map_position_renumbered _ hnd]
    exact (hperm.map _).symm

/-- Witness for C4: completing `sampleB` (Being Served at stored position 1) in `sampleStore`,
where `sampleD` is Being Served at stored position 2. -/
theorem completeTicket_renumbers_witness :
    (sampleStore.map (fun x => x._id)).Nodup ∧ sampleB ∈ sampleStore ∧
      (completeTicket sampleStore (IdParam.objectId sampleB._id)).code = 200 ∧
      (findById (completeTicket sampleStore (IdParam.objectId sampleB._id)).store
        sampleB._id).map (fun x => x.status)
        = some Status.Completed ∧
      ∃ others : List Ticket,
        others.Perm
          (sampleStore.filter (fun x => x.status = Status.BeingServed ∧ x._id ≠ sampleB._id)) ∧
        others.Sorted (fun a b => a.position ≤ b.position) ∧
        (∀ (i : Nat) (h : i < others.length),
          findById (completeTicket sampleStore (IdParam.objectId sampleB._id)).store (others[i])._id
            = some { others[i] with position := i + 1 }) ∧
        (((completeTicket sampleStore (IdParam.objectId sampleB._id)).store.filter
          (fun x => x.status = Status.BeingServed)).map (fun x => x._id)).Perm
            (others.map (fun x => x._id)) ∧
        (((completeTicket sampleStore (IdParam.objectId sampleB._id)).store.filter
          (fun x => x.status = Status.BeingServed)).map (fun x => x.position)).Perm
            (List.range' 1 others.length) :=
  ⟨by decide, by decide,
    completeTicket_renumbers sampleStore sampleB (by decide) (by decide) rfl⟩

/-- The scenario of C4 evaluated: after completing `sampleB`, `sampleD` is stored at
position 1. -/
theorem completeTicket_sample :
    (completeTicket sampleStore (IdParam.objectId 1)).store
      = [{ sampleB with status := Status.Completed }, { sampleD with position := 1 },
          sampleW, sampleC] := by
  decide

/-- C8 as amended: in a store with distinct ids, along every sequence of advance and complete
requests in which no advance asks for a status earlier than the one its ticket has at that
moment, the status of every stored ticket only moves forward in the order Waiting, Being
Served, Completed: it is no earlier after `pre` than at the start, and no earlier after
`pre ++ post` than after `pre`. The advance route itself checks no transition: at that moment
an advance of the ticket to any status of the enum is answered with 200 and stores that
status. -/
theorem status_monotonic_forward (s : Store) (pre post : List Request) (id : ObjectId)
    (t : Ticket) (hid : (s.map (fun x => x._id)).Nodup)
    (hfw : allForward s (pre ++ post) = true) (ht : findById s id = some t) :
    ∃ t1 t2, findById (run s pre) id = some t1 ∧ findById (run s (pre ++ post)) id = some t2 ∧
      t.status.rank ≤ t1.status.rank ∧ t1.status.rank ≤ t2.status.rank ∧
      ∀ requested : Status,
        (advanceTicket (run s pre) (IdParam.objectId id) (some requested.toString)).code = 200 ∧
        findById (advanceTicket (run s pre) (IdParam.objectId id)
          (some requested.toString)).store id = some { t1 with status := requested } := by
  obtain ⟨h1, h2⟩ := allForward_append pre post s hfw
  obtain ⟨t1, ht1, hle1⟩ := run_mono pre s id t hid h1 ht
  obtain ⟨t2, ht2, hle2⟩ :=
    run_mono post (run s pre) id t1 (by rw [ids_run]; exact hid) h2 ht1
  refine ⟨t1, t2, ht1, ?_, hle1, hle2, ?_⟩
  · rw [run, List.foldl_append]
    exact ht2
  · intro requested
    rw [advanceTicket_found (run s pre) id t1 requested ht1]
    exact ⟨rfl, findById_advanced (run s pre) id t1 requested ht1⟩

/-- Witness for C8 as amended: `sampleW` is advanced to Being Served, then `sampleD` and
`sampleW` are completed. -/
theorem status_monotonic_forward_witness :
    (sampleStore.map (fun x => x._id)).Nodup ∧
      allForward sampleStore
        ([Request.advance (IdParam.objectId 3) (some "Being Served")]
          ++ [Request.complete (IdParam.objectId 2), Request.complete (IdParam.objectId 3)])
        = true ∧
      findById sampleStore 3 = some sampleW ∧
      ∃ t1 t2,
        findById (run sampleStore [Request.advance (IdParam.objectId 3) (some "Being Served")]) 3
          = some t1 ∧
        findById (run sampleStore ([Request.advance (IdParam.objectId 3) (some "Being Served")]
          ++ [Request.complete (IdParam.objectId 2), Request.complete (IdParam.objectId 3)])) 3
          = some t2 ∧
        sampleW.status.rank ≤ t1.status.rank ∧ t1.status.rank ≤ t2.status.rank ∧
        ∀ requested : Status,
          (advanceTicket
            (run sampleStore [Request.advance (IdParam.objectId 3) (some "Being Served")])
            (IdParam.objectId 3) (some requested.toString)).code = 200 ∧
          findById (advanceTicket
            (run sampleStore [Request.advance (IdParam.objectId 3) (some "Being Served")])
            (IdParam.objectId 3) (some requested.toString)).store 3
            = some { t1 with status := requested } :=
  ⟨by decide, by decide, by decide,
    status_monotonic_forward sampleStore
      [Request.advance (IdParam.objectId 3) (some "Being Served")]
      [Request.complete (IdParam.objectId 2), Request.complete (IdParam.objectId 3)] 3 sampleW
      (by decide) (by decide) (by decide)⟩

/-- C8 as stated fails: an advance to `Waiting` moves the Completed ticket of `sampleStore`
back to Waiting, and an advance to `Waiting` moves a Being Served ticket back to Waiting. -/
theorem advance_moves_status_back :
    (findById sampleStore 4).map (fun x => x.status) = some Status.Completed ∧
      (advanceTicket sampleStore (IdParam.objectId 4) (some "Waiting")).code = 200 ∧
      (findById (run sampleStore [Request.advance (IdParam.objectId 4) (some "Waiting")]) 4).map
        (fun x => x.status) = some Status.Waiting ∧
      (findById sampleStore 1).map (fun x => x.status) = some Status.BeingServed ∧
      (findById (run sampleStore [Request.advance (IdParam.objectId 1) (some "Waiting")]) 1).map
        (fun x => x.status) = some Status.Waiting := by
  decide

/-- C2 on the code: the ticket issued into the empty store is answered with position 1 and
stored with position 2; after issuing three tickets in order, answered with positions 1, 2
and 3, the three Waiting tickets are all stored with position 4. -/
theorem issueTicket_stored_positions :
    (issueTicket [] 100 sampleDraws (some (IdParam.objectId 9)) (some "staff1")).position
        = some 1 ∧
      (issueTicket [] 100 sampleDraws (some (IdParam.objectId 9)) (some "staff1")).store.map
        (fun t => (t.status, t.issuedAt, t.position)) = [(Status.Waiting, 100, 2)] ∧
      (issueTicket
        (issueTicket [] 100 sampleDraws (some (IdParam.objectId 9)) (some "staff1")).store
        200 sampleDraws (some (IdParam.objectId 9)) (some "staff1")).position = some 2 ∧
      (issueTicket
        (issueTicket
          (issueTicket [] 100 sampleDraws (some (IdParam.objectId 9)) (some "staff1")).store
          200 sampleDraws (some (IdParam.objectId 9)) (some "staff1")).store
        300 sampleDraws (some (IdParam.objectId 9)) (some "staff1")).position = some 3 ∧
      (issueTicket
        (issueTicket
          (issueTicket [] 100 sampleDraws (some (IdParam.objectId 9)) (some "staff1")).store
          200 sampleDraws (some (IdParam.objectId 9)) (some "staff1")).store
        300 sampleDraws (some (IdParam.objectId 9)) (some "staff1")).store.map
        (fun t => (t.status, t.issuedAt, t.position))
        = [(Status.Waiting, 100, 4), (Status.Waiting, 200, 4), (Status.Waiting, 300, 4)] := by
  decide

/-- C10 on the code: a ticket issued with `issuedBy = staff1` is listed by `GET /api/queue`
with `issuedBy = Unknown`. -/
theorem listQueue_issuedBy_unknown :
    (issueTicket [] 100 sampleDraws (some (IdParam.objectId 9)) (some "staff1")).code = 201 ∧
      (listQueue sampleUsers
        (issueTicket [] 100 sampleDraws (some (IdParam.objectId 9)) (some "staff1")).store).map
        (fun e => (e.name, e.issuedBy, e.status, e.position))
        = [("Abebe", "Unknown", Status.Waiting, 1)] := by
  decide

end IRack
